/-
Verification of the HomeWorkDB benchmark drivers (src/task-5.py, src/task-6.py).

Shallow embedding notes:
* The database table `performance_test` is modelled as `DBState`: an ordered
  list of rows (`rows`, kept in physical/insertion order, which coincides with
  ascending `id` order because ids are assigned by an increasing identity
  sequence), the identity sequence counter (`nextId`), a position into the
  global random stream (`rngPos`, modelling Python's global `random` state),
  a wall-clock (`time`, rationals standing in for float seconds) together with
  a step counter (`tick`), and the log file contents (`log`).
* Wall-clock behaviour is supplied by an environment `Env`: `randc i` is the
  i-th lowercase-letter draw of the global random stream, and `dt k` is the
  amount of wall-clock time elapsing during the k-th timed database call.
  Each timed operation reads the clock, performs its work, advances the clock
  by the environment-supplied amount, and returns `end - start` exactly as the
  Python code computes `time.time() - start_time`.
* Python's float division raises `ZeroDivisionError` on a zero denominator
  (it does not produce an IEEE infinity), so division is embedded as an
  `Except`-valued operation `pydiv`.
* The two drivers differ only in the presence of `ORDER BY id` in the
  select/update/delete row selection (task-6) versus an implementation-defined
  scan order (task-5).  The model keeps `rows` in ascending-id order, where
  both policies select the first `num_records` rows of the list, so one set of
  definitions covers both variants; `create_indexes` / `drop_indexes` /
  `run_performance_tests` / `_run_test_cycle` / `_print_comparison_table`
  follow task-6.
* Progress log lines produced inside the test cycle (the per-operation timing
  messages) are pure presentation and are not modelled; the log messages of
  `create_indexes` / `drop_indexes` are modelled because error handling there
  is specified.
-/
import Mathlib

set_option linter.unusedVariables false

/-- A row of the `performance_test` table (spec: TestRecord):
`id SERIAL PRIMARY KEY, name VARCHAR(50), description TEXT,
created_at TIMESTAMP` (src/task-5.py lines 19-26). -/
structure TestRecord where
  id : Nat
  name : String
  description : String
  created_at : Rat
deriving Repr, DecidableEq

/-- Environment supplying the sources of nondeterminism: the global random
character stream (`randc`) and the wall-clock advance of each timed database
call (`dt`). -/
structure Env where
  randc : Nat → Fin 26
  dt : Nat → Rat

/-- The state touched by the benchmark driver: table rows in physical
(= ascending id) order, the identity sequence, the position of the global
random stream, the step counter and current reading of the wall clock, and
the contents of the log file. -/
structure DBState where
  rows : List TestRecord
  nextId : Nat
  rngPos : Nat
  tick : Nat
  time : Rat
  log : List String
deriving Repr, DecidableEq

/-- `string.ascii_lowercase` from the Python standard library. -/
def ascii_lowercase : List Char := "abcdefghijklmnopqrstuvwxyz".data

/-- Selecting one character of `string.ascii_lowercase` by a random draw. -/
def pickChar (v : Fin 26) : Char :=
  ascii_lowercase.get ⟨v.val, lt_of_lt_of_le v.isLt (by decide)⟩

/-- `generate_random_string` (src/task-5.py lines 13-15, identical in
src/task-6.py): `''.join(random.choices(string.ascii_lowercase, k=length))`,
with default length 10.  The random draws are taken from the stream
`randc`. -/
def generate_random_string (randc : Nat → Fin 26) (length : Nat := 10) : String :=
  String.mk ((List.range length).map (fun i => pickChar (randc i)))

/-- Python float division: raises `ZeroDivisionError` when the denominator is
zero, otherwise returns the exact quotient. -/
def pydiv (a b : Rat) : Except String Rat :=
  if b = 0 then Except.error "ZeroDivisionError: float division by zero"
  else Except.ok (a / b)

/-- The per-row percent-difference computation of `_print_comparison_table`
(src/task-6.py line 204):
`diff_percent = ((without_index - with_index) / without_index) * 100`. -/
def diff_percent (without_index with_index : Rat) : Except String Rat := do
  let q ← pydiv (without_index - with_index) without_index
  pure (q * 100)

/-- `log_result` (src/task-6.py lines 64-68): appends the message to the log
file (console echo not modelled). -/
def log_result (s : DBState) (message : String) : DBState :=
  { s with log := s.log ++ [message] }

/-- `TRUNCATE TABLE performance_test RESTART IDENTITY`
(src/task-5.py line 105, src/task-6.py line 167): removes every row and
resets the identity sequence to 1. -/
def truncate_table (s : DBState) : DBState :=
  { s with rows := [], nextId := 1 }

/-- One iteration of the insert loop of `insert_data` (src/task-5.py
lines 39-47): generate a 10-character random name and a 50-character random
description, take the current timestamp, and insert the row; the identity
sequence assigns the id. -/
def insertOne (env : Env) (s : DBState) : DBState :=
  let name := generate_random_string (fun i => env.randc (s.rngPos + i)) 10
  let description := generate_random_string (fun i => env.randc (s.rngPos + 10 + i)) 50
  { s with
      rows := s.rows ++ [⟨s.nextId, name, description, s.time⟩]
      nextId := s.nextId + 1
      rngPos := s.rngPos + 60 }

/-- The `for _ in range(num_records)` loop of `insert_data`. -/
def insertLoop (env : Env) : Nat → DBState → DBState
  | 0, s => s
  | n + 1, s => insertLoop env n (insertOne env s)

/-- `insert_data` (src/task-5.py lines 35-50, src/task-6.py lines 70-85):
inserts `num_records` freshly generated rows inside one transaction and
returns the elapsed wall-clock seconds together with the new state. -/
def insert_data (env : Env) (num_records : Nat) (s : DBState) : Rat × DBState :=
  let start_time := s.time
  let s1 := insertLoop env num_records s
  let s2 := { s1 with time := s1.time + env.dt s1.tick, tick := s1.tick + 1 }
  (s2.time - start_time, s2)

/-- `select_data` (src/task-5.py lines 52-61, src/task-6.py lines 87-99):
`SELECT * FROM performance_test [ORDER BY id] LIMIT num_records`, fetching
the results.  The Python function binds the fetched rows locally and returns
only the elapsed time; the model also exposes the fetched rows (second
component) so that properties of the result set can be stated. -/
def select_data (env : Env) (num_records : Nat) (s : DBState) :
    Rat × List TestRecord × DBState :=
  let start_time := s.time
  let results := s.rows.take num_records
  let s1 := { s with time := s.time + env.dt s.tick, tick := s.tick + 1 }
  (s1.time - start_time, results, s1)

/-- The row mutation of `update_data`:
`SET description = description || '_updated'`. -/
def apply_update (r : TestRecord) : TestRecord :=
  { r with description := r.description ++ "_updated" }

/-- `update_data` (src/task-5.py lines 63-77, src/task-6.py lines 101-116):
appends `'_updated'` to the description of the rows whose id is in
`SELECT id FROM performance_test [ORDER BY id] LIMIT num_records`, i.e. the
first `num_records` rows; commits and returns the elapsed time. -/
def update_data (env : Env) (num_records : Nat) (s : DBState) : Rat × DBState :=
  let start_time := s.time
  let s1 := { s with
      rows := (s.rows.take num_records).map apply_update ++ s.rows.drop num_records
      time := s.time + env.dt s.tick
      tick := s.tick + 1 }
  (s1.time - start_time, s1)

/-- `delete_data` (src/task-5.py lines 79-92, src/task-6.py lines 118-132):
deletes the rows whose id is in
`SELECT id FROM performance_test [ORDER BY id] LIMIT num_records`, i.e. the
first `num_records` rows; commits and returns the elapsed time. -/
def delete_data (env : Env) (num_records : Nat) (s : DBState) : Rat × DBState :=
  let start_time := s.time
  let s1 := { s with
      rows := s.rows.drop num_records
      time := s.time + env.dt s.tick
      tick := s.tick + 1 }
  (s1.time - start_time, s1)

/-- Per-tier timing results (spec: TierResult); the value stored under
`results[size]` by the test cycle (src/task-5.py lines 123-128,
src/task-6.py lines 185-190). -/
structure TierResult where
  size : Nat
  insert_time : Rat
  select_time : Rat
  update_time : Rat
  delete_time : Rat
deriving Repr, DecidableEq

/-- One tier of the test cycle (spec: `run_tier`): the loop body of
`run_performance_tests` (src/task-5.py lines 101-128) and of
`_run_test_cycle` (src/task-6.py lines 163-190): truncate the table and
reset the identity sequence, then run insert, select, update, delete for
`size` records, collecting the four durations. -/
def run_tier (env : Env) (size : Nat) (s : DBState) : TierResult × DBState :=
  let s0 := truncate_table s
  let r1 := insert_data env size s0
  let r2 := select_data env size r1.2
  let r3 := update_data env size r2.2.2
  let r4 := delete_data env size r3.2
  (⟨size, r1.1, r2.1, r3.1, r4.1⟩, r4.2)

-- Basic bookkeeping lemmas about the operations.

theorem insertLoop_rows_append (env : Env) :
    ∀ (n : Nat) (s : DBState), ∃ l, (insertLoop env n s).rows = s.rows ++ l := by
  intro n
  induction n with
  | zero => intro s; exact ⟨[], by simp [insertLoop]⟩
  | succ n ih =>
      intro s
      obtain ⟨l, hl⟩ := ih (insertOne env s)
      refine ⟨⟨s.nextId,
        generate_random_string (fun i => env.randc (s.rngPos + i)) 10,
        generate_random_string (fun i => env.randc (s.rngPos + 10 + i)) 50,
        s.time⟩ :: l, ?_⟩
      simp [insertLoop, insertOne] at hl ⊢
      simp [hl]

theorem insertLoop_ids (env : Env) :
    ∀ (n : Nat) (s : DBState),
      (insertLoop env n s).rows.map TestRecord.id =
        s.rows.map TestRecord.id ++ List.range' s.nextId n := by
  intro n
  induction n with
  | zero => intro s; simp [insertLoop]
  | succ n ih =>
      intro s
      rw [insertLoop, ih (insertOne env s)]
      simp [insertOne, List.range'_succ]

theorem insertLoop_length (env : Env) :
    ∀ (n : Nat) (s : DBState),
      (insertLoop env n s).rows.length = s.rows.length + n := by
  intro n
  induction n with
  | zero => intro s; simp [insertLoop]
  | succ n ih =>
      intro s
      rw [insertLoop, ih (insertOne env s)]
      simp [insertOne]
      omega

theorem insertLoop_time (env : Env) :
    ∀ (n : Nat) (s : DBState), (insertLoop env n s).time = s.time := by
  intro n
  induction n with
  | zero => intro s; simp [insertLoop]
  | succ n ih => intro s; rw [insertLoop, ih (insertOne env s)]; rfl

theorem insertLoop_tick (env : Env) :
    ∀ (n : Nat) (s : DBState), (insertLoop env n s).tick = s.tick := by
  intro n
  induction n with
  | zero => intro s; simp [insertLoop]
  | succ n ih => intro s; rw [insertLoop, ih (insertOne env s)]; rfl

theorem insert_data_rows (env : Env) (n : Nat) (s : DBState) :
    (insert_data env n s).2.rows = (insertLoop env n s).rows := rfl

theorem insert_data_elapsed (env : Env) (n : Nat) (s : DBState) :
    (insert_data env n s).1 = env.dt s.tick := by
  simp [insert_data, insertLoop_time, insertLoop_tick]

theorem insert_data_tick (env : Env) (n : Nat) (s : DBState) :
    (insert_data env n s).2.tick = s.tick + 1 := by
  simp [insert_data, insertLoop_tick]

theorem select_data_elapsed (env : Env) (n : Nat) (s : DBState) :
    (select_data env n s).1 = env.dt s.tick := by
  simp [select_data]

theorem update_data_rows (env : Env) (n : Nat) (s : DBState) :
    (update_data env n s).2.rows =
      (s.rows.take n).map apply_update ++ s.rows.drop n := rfl

theorem update_data_elapsed (env : Env) (n : Nat) (s : DBState) :
    (update_data env n s).1 = env.dt s.tick := by
  simp [update_data]

theorem delete_data_rows (env : Env) (n : Nat) (s : DBState) :
    (delete_data env n s).2.rows = s.rows.drop n := rfl

theorem delete_data_elapsed (env : Env) (n : Nat) (s : DBState) :
    (delete_data env n s).1 = env.dt s.tick := by
  simp [delete_data]

theorem ascii_lowercase_bounds :
    ∀ c ∈ ascii_lowercase, 'a' ≤ c ∧ c ≤ 'z' := by decide

theorem pickChar_mem (v : Fin 26) : pickChar v ∈ ascii_lowercase :=
  List.get_mem _ _ _

/-- C9: for every non-negative length n, `generate_random_string(n)` returns
a string of exactly n characters, each of which is a lowercase ASCII letter;
when called with no argument, the result has length exactly 10. -/
theorem C9_generate_random_string_spec (randc : Nat → Fin 26) (n : Nat) :
    (generate_random_string randc n).length = n ∧
    (∀ c ∈ (generate_random_string randc n).data, 'a' ≤ c ∧ c ≤ 'z') ∧
    (generate_random_string randc).length = 10 := by
  refine ⟨?_, ?_, ?_⟩
  · simp [generate_random_string, String.length]
  · intro c hc
    simp [generate_random_string, String.mk] at hc
    obtain ⟨i, _, hi⟩ := hc
    exact ascii_lowercase_bounds c (hi ▸ pickChar_mem (randc i))
  · simp [generate_random_string, String.length]

/-- Witness for C9 at the constant random stream and length 3: the result has
length 3 and its character 'a' is within the lowercase range. -/
theorem C9_witness :
    (generate_random_string (fun _ => (0 : Fin 26)) 3).length = 3 ∧
    ('a' ≤ 'a' ∧ 'a' ≤ 'z') :=
  ⟨(C9_generate_random_string_spec (fun _ => (0 : Fin 26)) 3).1,
   (C9_generate_random_string_spec (fun _ => (0 : Fin 26)) 3).2.1 'a' (by decide)⟩

/-- C1: the claim says the percent-difference computation guards the
zero-baseline case and must not raise a division error.  The code
(src/task-6.py line 204) divides by `without_index` unguarded, and the
surrounding `_print_comparison_table` / `run_performance_tests` contain no
try/except, so a 0.0 baseline raises `ZeroDivisionError`.  This theorem
evaluates the embedded computation at the failing input `without_index = 0`,
`with_index = 1`: the result is the division error, not a guarded value. -/
theorem C1_zero_baseline_division_raises :
    diff_percent 0 1 =
      Except.error "ZeroDivisionError: float division by zero" := rfl

/-- C4: for every without-index time w and with-index time i (w nonzero), the
percent difference equals (w - i) / w * 100, signed; for positive w the
difference is positive exactly when the indexed run was faster (i < w); and
w = 2, i = 1 yields +50 while w = 1, i = 1.5 yields -50. -/
theorem C4_percent_difference_formula (w i : Rat) (hw : w ≠ 0) :
    diff_percent w i = Except.ok ((w - i) / w * 100) ∧
    (0 < w → (0 < (w - i) / w * 100 ↔ i < w)) ∧
    diff_percent 2 1 = Except.ok 50 ∧
    diff_percent 1 (3 / 2) = Except.ok (-50) := by
  refine ⟨?_, ?_, by norm_num [diff_percent, pydiv], by norm_num [diff_percent, pydiv]⟩
  · simp [diff_percent, pydiv, hw]
  · intro hwpos
    constructor
    · intro h
      by_contra hcon
      push_neg at hcon
      have hnum : w - i ≤ 0 := by linarith
      have : (w - i) / w ≤ 0 := div_nonpos_of_nonpos_of_nonneg hnum (le_of_lt hwpos)
      nlinarith
    · intro h
      have hnum : 0 < w - i := by linarith
      have : 0 < (w - i) / w := div_pos hnum hwpos
      nlinarith

/-- Witness for C4 at w = 2, i = 1. -/
theorem C4_witness :
    (2 : Rat) ≠ 0 ∧
    diff_percent 2 1 = Except.ok ((2 - 1) / 2 * 100) ∧
    (0 < (2 : Rat) → (0 < ((2 : Rat) - 1) / 2 * 100 ↔ (1 : Rat) < 2)) :=
  ⟨by norm_num,
   (C4_percent_difference_formula 2 1 (by norm_num)).1,
   (C4_percent_difference_formula 2 1 (by norm_num)).2.1⟩

theorem select_data_rows (env : Env) (n : Nat) (s : DBState) :
    (select_data env n s).2.2.rows = s.rows := rfl

theorem select_data_tick (env : Env) (n : Nat) (s : DBState) :
    (select_data env n s).2.2.tick = s.tick + 1 := rfl

theorem update_data_tick (env : Env) (n : Nat) (s : DBState) :
    (update_data env n s).2.tick = s.tick + 1 := rfl

theorem delete_data_tick (env : Env) (n : Nat) (s : DBState) :
    (delete_data env n s).2.tick = s.tick + 1 := rfl

theorem truncate_table_tick (s : DBState) : (truncate_table s).tick = s.tick := rfl

theorem update_data_length (env : Env) (n : Nat) (s : DBState) :
    (update_data env n s).2.rows.length = s.rows.length := by
  rw [update_data_rows]
  simp
  omega

theorem run_tier_state (env : Env) (size : Nat) (s : DBState) :
    (run_tier env size s).2 =
      (delete_data env size
        (update_data env size
          (select_data env size
            (insert_data env size (truncate_table s)).2).2.2).2).2 := rfl

theorem run_tier_times (env : Env) (size : Nat) (s : DBState) :
    (run_tier env size s).1 =
      ⟨size, env.dt s.tick, env.dt (s.tick + 1),
       env.dt (s.tick + 2), env.dt (s.tick + 3)⟩ := by
  show (⟨size,
      (insert_data env size (truncate_table s)).1,
      (select_data env size (insert_data env size (truncate_table s)).2).1,
      (update_data env size
        (select_data env size (insert_data env size (truncate_table s)).2).2.2).1,
      (delete_data env size
        (update_data env size
          (select_data env size
            (insert_data env size (truncate_table s)).2).2.2).2).1⟩ : TierResult) = _
  rw [insert_data_elapsed, select_data_elapsed, update_data_elapsed,
    delete_data_elapsed, truncate_table_tick, insert_data_tick,
    select_data_tick, update_data_tick, insert_data_tick, truncate_table_tick,
    select_data_tick, insert_data_tick, truncate_table_tick]

theorem run_tier_tick (env : Env) (size : Nat) (s : DBState) :
    (run_tier env size s).2.tick = s.tick + 4 := by
  rw [run_tier_state, delete_data_tick, update_data_tick, select_data_tick,
    insert_data_tick, truncate_table_tick]

/-- C2: for every tier size N > 0, after run_tier(N) — truncate, then insert
N, select, update, delete with limit N — the table contains zero rows: the
full CRUD cycle nets to an empty table. -/
theorem C2_run_tier_nets_empty (env : Env) (size : Nat) (s : DBState)
    (h : 0 < size) :
    (run_tier env size s).2.rows = [] := by
  have hlen :
      (update_data env size
        (select_data env size
          (insert_data env size (truncate_table s)).2).2.2).2.rows.length = size := by
    rw [update_data_length, select_data_rows, insert_data_rows, insertLoop_length]
    simp [truncate_table]
  rw [run_tier_state, delete_data_rows]
  exact List.drop_eq_nil_of_le (le_of_eq hlen)

/-- Witness for C2: a concrete run of a tier of size 1 from the initial state
ends with an empty table. -/
theorem C2_witness :
    0 < 1 ∧
      (run_tier ⟨fun _ => 0, fun _ => 1⟩ 1 ⟨[], 1, 0, 0, 0, []⟩).2.rows = [] :=
  ⟨Nat.one_pos, C2_run_tier_nets_empty ⟨fun _ => 0, fun _ => 1⟩ 1
    ⟨[], 1, 0, 0, 0, []⟩ Nat.one_pos⟩

/-- C3: before every tier's measurement the table is truncated and its
identity sequence reset (rows empty, next id 1), so in every tier — whatever
state s earlier tiers left behind — the records inserted by the tier's insert
phase carry ids 1, 2, ..., N and in particular the first inserted record has
id = 1. -/
theorem C3_truncate_resets_identity (env : Env) (s : DBState) (size : Nat)
    (h : 0 < size) :
    (truncate_table s).rows = [] ∧
    (truncate_table s).nextId = 1 ∧
    (insert_data env size (truncate_table s)).2.rows.map TestRecord.id =
      List.range' 1 size ∧
    ∃ r l, (insert_data env size (truncate_table s)).2.rows = r :: l ∧
      r.id = 1 := by
  have hids : (insert_data env size (truncate_table s)).2.rows.map TestRecord.id =
      List.range' 1 size := by
    rw [insert_data_rows, insertLoop_ids]
    simp [truncate_table]
  refine ⟨rfl, rfl, hids, ?_⟩
  cases hrows : (insert_data env size (truncate_table s)).2.rows with
  | nil =>
      rw [hrows] at hids
      have hlen : (List.range' 1 size).length = 0 := by rw [← hids]; simp
      rw [List.length_range'] at hlen
      omega
  | cons r l =>
      rw [hrows] at hids
      obtain ⟨m, hm⟩ := Nat.exists_eq_succ_of_ne_zero (Nat.pos_iff_ne_zero.mp h)
      subst hm
      rw [List.range'_succ] at hids
      simp at hids
      exact ⟨r, l, rfl, hids.1⟩

/-- Witness for C3: from the initial state with a concrete environment, a
tier of size 2 has its table truncated and inserts records with ids [1, 2]. -/
theorem C3_witness :
    0 < 2 ∧
      ((truncate_table ⟨[], 5, 0, 0, 0, []⟩).rows = [] ∧
       (truncate_table ⟨[], 5, 0, 0, 0, []⟩).nextId = 1 ∧
       (insert_data ⟨fun _ => 0, fun _ => 1⟩ 2
          (truncate_table ⟨[], 5, 0, 0, 0, []⟩)).2.rows.map TestRecord.id =
         List.range' 1 2 ∧
       ∃ r l, (insert_data ⟨fun _ => 0, fun _ => 1⟩ 2
          (truncate_table ⟨[], 5, 0, 0, 0, []⟩)).2.rows = r :: l ∧ r.id = 1) :=
  ⟨Nat.zero_lt_two,
   C3_truncate_resets_identity ⟨fun _ => 0, fun _ => 1⟩ ⟨[], 5, 0, 0, 0, []⟩ 2
     Nat.zero_lt_two⟩

/-- A concrete environment for witnesses: the random stream always draws the
letter at position 0 and every timed call takes 1 second. -/
def envW : Env := ⟨fun _ => 0, fun _ => 1⟩

/-- A concrete table state for witnesses: two rows already present. -/
def sW : DBState :=
  ⟨[⟨1, "a", "d", 0⟩, ⟨2, "b", "e", 0⟩], 3, 0, 0, 0, []⟩

/-- C5: for every table state and every count, `update_data(count)` leaves
every row other than the first `count` rows (the selection policy's choice)
with its description unchanged, and gives every selected row the description
obtained by appending the suffix '_updated' exactly once, with id, name and
created_at untouched; the number of rows is unchanged. -/
theorem C5_update_data_frame (env : Env) (n : Nat) (s : DBState) :
    (update_data env n s).2.rows.length = s.rows.length ∧
    (∀ i, n ≤ i → (update_data env n s).2.rows[i]? = s.rows[i]?) ∧
    (∀ i, ∀ hi : i < s.rows.length, i < n →
      (update_data env n s).2.rows[i]? =
        some { id := (s.rows.get ⟨i, hi⟩).id
               name := (s.rows.get ⟨i, hi⟩).name
               description := (s.rows.get ⟨i, hi⟩).description ++ "_updated"
               created_at := (s.rows.get ⟨i, hi⟩).created_at }) := by
  refine ⟨update_data_length env n s, ?_, ?_⟩
  · intro i hni
    rw [update_data_rows]
    have hA : ((s.rows.take n).map apply_update).length ≤ i := by
      simp [List.length_take]
      omega
    rw [List.getElem?_append_right hA]
    by_cases hn : n ≤ s.rows.length
    · have hmin : ((s.rows.take n).map apply_update).length = n := by
        simp [List.length_take]
        omega
      rw [hmin, List.getElem?_drop]
      congr 1
      omega
    · push_neg at hn
      rw [List.drop_eq_nil_of_le (le_of_lt hn)]
      rw [List.getElem?_eq_none (by omega : s.rows.length ≤ i)]
      simp
  · intro i hi hin
    rw [update_data_rows]
    have hA : i < ((s.rows.take n).map apply_update).length := by
      simp [List.length_take]
      omega
    rw [List.getElem?_append, if_pos hA, List.getElem?_map, List.getElem?_take,
      if_pos hin, List.getElem?_eq_getElem hi]
    simp [apply_update]

/-- Witness for C5 with count 1 on the two-row state `sW`: the second row
keeps its description, the first gets it suffixed exactly once. -/
theorem C5_witness :
    (update_data envW 1 sW).2.rows[1]? = sW.rows[1]? ∧
    (update_data envW 1 sW).2.rows[0]? = some ⟨1, "a", "d_updated", 0⟩ := by
  have h := C5_update_data_frame envW 1 sW
  refine ⟨h.2.1 1 (by decide), ?_⟩
  rw [h.2.2 0 (by decide) (by decide)]
  decide

/-- C8: for every table state and every count, `select_data(count)` returns
at most `count` rows, at most as many rows as exist in the table, and leaves
the table contents unchanged. -/
theorem C8_select_data_bounds_no_mutation (env : Env) (n : Nat) (s : DBState) :
    (select_data env n s).2.1.length ≤ n ∧
    (select_data env n s).2.1.length ≤ s.rows.length ∧
    (select_data env n s).2.2.rows = s.rows := by
  refine ⟨?_, ?_, rfl⟩ <;>
    · show (s.rows.take n).length ≤ _
      simp [List.length_take]

/-- C10: with count = 0, `insert_data` inserts no rows and `update_data` and
`delete_data` modify no rows — the table contents are identical before and
after — and each of the three returns a non-negative elapsed time (given that
the wall clock never runs backwards, i.e. each call's clock advance is
non-negative). -/
theorem C10_zero_count_noop (env : Env) (s : DBState)
    (h : ∀ k, 0 ≤ env.dt k) :
    (insert_data env 0 s).2.rows = s.rows ∧ 0 ≤ (insert_data env 0 s).1 ∧
    (update_data env 0 s).2.rows = s.rows ∧ 0 ≤ (update_data env 0 s).1 ∧
    (delete_data env 0 s).2.rows = s.rows ∧ 0 ≤ (delete_data env 0 s).1 := by
  refine ⟨?_, ?_, ?_, ?_, ?_, ?_⟩
  · rw [insert_data_rows]; rfl
  · rw [insert_data_elapsed]; exact h s.tick
  · rw [update_data_rows]; simp
  · rw [update_data_elapsed]; exact h s.tick
  · rw [delete_data_rows]; simp
  · rw [delete_data_elapsed]; exact h s.tick

/-- Witness for C10 on the concrete environment `envW` and state `sW`. -/
theorem C10_witness :
    (∀ k, 0 ≤ envW.dt k) ∧
    ((insert_data envW 0 sW).2.rows = sW.rows ∧
     0 ≤ (insert_data envW 0 sW).1 ∧
     (update_data envW 0 sW).2.rows = sW.rows ∧
     0 ≤ (update_data envW 0 sW).1 ∧
     (delete_data envW 0 sW).2.rows = sW.rows ∧
     0 ≤ (delete_data envW 0 sW).1) :=
  ⟨fun _ => zero_le_one, C10_zero_count_noop envW sW (fun _ => zero_le_one)⟩

/-- `create_indexes` (src/task-6.py lines 29-47): runs the two
`CREATE INDEX IF NOT EXISTS` statements and the commit inside a try block;
the outcome of that fallible body is the parameter `attempt`.  On success the
success message is logged; on any exception the error is caught and a message
containing it is logged, and a normal state is returned (the function's
return type has no error component: nothing propagates to the caller). -/
def create_indexes (attempt : Except String Unit) (s : DBState) : DBState :=
  match attempt with
  | Except.ok _ => log_result s "Індекси успішно створено"
  | Except.error e => log_result s ("Помилка при створенні індексів: " ++ e)

/-- `drop_indexes` (src/task-6.py lines 49-62): same try/except shape as
`create_indexes` around the two `DROP INDEX IF EXISTS` statements. -/
def drop_indexes (attempt : Except String Unit) (s : DBState) : DBState :=
  match attempt with
  | Except.ok _ => log_result s "Індекси успішно видалено"
  | Except.error e => log_result s ("Помилка при видаленні індексів: " ++ e)

/-- Assignment `results[size] = value` on a Python dict modelled as an
association list in key-insertion order: replace in place if the key is
present, append otherwise. -/
def dictInsert (k : Nat) (v : TierResult) :
    List (Nat × TierResult) → List (Nat × TierResult)
  | [] => [(k, v)]
  | p :: rest => if p.1 = k then (k, v) :: rest else p :: dictInsert k v rest

/-- The `for size in test_sizes` loop of `_run_test_cycle`
(src/task-6.py lines 163-190), accumulating the `results` dict. -/
def testCycleLoop (env : Env) :
    List Nat → List (Nat × TierResult) → DBState →
      List (Nat × TierResult) × DBState
  | [], acc, s => (acc, s)
  | size :: rest, acc, s =>
      let r := run_tier env size s
      testCycleLoop env rest (dictInsert size r.1 acc) r.2

/-- `_run_test_cycle` (src/task-6.py lines 159-192): runs one tier per entry
of `test_sizes`, starting from the empty `results` dict. -/
def _run_test_cycle (env : Env) (test_sizes : List Nat) (s : DBState) :
    List (Nat × TierResult) × DBState :=
  testCycleLoop env test_sizes [] s

/-- The fixed operation list `['Insert', 'Select', 'Update', 'Delete']` of
`_print_comparison_table` (src/task-6.py line 201). -/
def opsList : List String := ["Insert", "Select", "Update", "Delete"]

/-- Indexing `times[op]` for the four fixed operation keys
(src/task-6.py lines 202-203). -/
def opTime (t : TierResult) (op : String) : Rat :=
  if op = "Insert" then t.insert_time
  else if op = "Select" then t.select_time
  else if op = "Update" then t.update_time
  else t.delete_time

/-- One line of the comparison report (spec: ComparisonRow). -/
structure CompRow where
  size : Nat
  op : String
  time_without_index : Rat
  time_with_index : Rat
  percent_difference : Rat
deriving Repr, DecidableEq

/-- A Python for-loop that builds one value per element and can raise:
stops at the first raised error, otherwise collects all values in order. -/
def exceptMapList {α β : Type} (f : α → Except String β) :
    List α → Except String (List β)
  | [] => Except.ok []
  | a :: l => do
      let b ← f a
      let bs ← exceptMapList f l
      pure (b :: bs)

/-- One iteration of the inner loop of `_print_comparison_table`
(src/task-6.py lines 201-206): look up `results_with_index[size][op]`
(raising `KeyError` if the size is absent, as the dict indexing would),
compute the percent difference (which can raise `ZeroDivisionError`), and
produce the report row. -/
def compRow (results_with_index : List (Nat × TierResult)) (size : Nat)
    (op : String) (tw : TierResult) : Except String CompRow :=
  match List.lookup size results_with_index with
  | none => Except.error "KeyError"
  | some ti => do
      let d ← diff_percent (opTime tw op) (opTime ti op)
      pure ⟨size, op, opTime tw op, opTime ti op, d⟩

/-- `_print_comparison_table` (src/task-6.py lines 194-206): for each size of
the without-index results, in dict order, and for each of the four operations
in the fixed order, emit one comparison line.  Returns the list of rows, or
the first error raised. -/
def _print_comparison_table
    (results_without_index results_with_index : List (Nat × TierResult)) :
    Except String (List CompRow) := do
  let rowss ← exceptMapList
    (fun p => exceptMapList (fun op => compRow results_with_index p.1 op p.2)
      opsList)
    results_without_index
  pure rowss.flatten

/-- `run_performance_tests` (src/task-6.py lines 134-157): truncate the log
file, run the full test cycle without indexes, create the indexes, run the
full cycle again, drop the indexes, and print the comparison table.  The
outcomes of the fallible bodies of `create_indexes` / `drop_indexes` are the
parameters `createOutcome` / `dropOutcome`. -/
def run_performance_tests (env : Env)
    (createOutcome dropOutcome : Except String Unit)
    (test_sizes : List Nat) (s : DBState) :
    Except String
      (List (Nat × TierResult) × List (Nat × TierResult) ×
        List CompRow × DBState) := do
  let s0 := log_result { s with log := [] } "=== Тестування без індексів ==="
  let c1 := _run_test_cycle env test_sizes s0
  let s1 := create_indexes createOutcome c1.2
  let s2 := log_result s1 "=== Тестування з індексами ==="
  let c2 := _run_test_cycle env test_sizes s2
  let s3 := drop_indexes dropOutcome c2.2
  let rows ← _print_comparison_table c1.1 c2.1
  pure (c1.1, c2.1, rows, s3)

/-- C6: for every failure raised inside the try body of `create_indexes` or
`drop_indexes`, the error is caught, a message containing it is logged, and
execution continues with the table untouched; the functions return a plain
state (their type has no error alternative), so no failure propagates to the
caller. -/
theorem C6_index_failures_nonfatal (e1 e2 : String) (s1 s2 : DBState) :
    (create_indexes (Except.error e1) s1).log =
      s1.log ++ ["Помилка при створенні індексів: " ++ e1] ∧
    (create_indexes (Except.error e1) s1).rows = s1.rows ∧
    (drop_indexes (Except.error e2) s2).log =
      s2.log ++ ["Помилка при видаленні індексів: " ++ e2] ∧
    (drop_indexes (Except.error e2) s2).rows = s2.rows :=
  ⟨rfl, rfl, rfl, rfl⟩

/-- All four durations of a tier result are positive. -/
def posTier (t : TierResult) : Prop :=
  0 < t.insert_time ∧ 0 < t.select_time ∧ 0 < t.update_time ∧ 0 < t.delete_time

theorem run_tier_posTier (env : Env) (hdt : ∀ k, 0 < env.dt k)
    (size : Nat) (s : DBState) : posTier (run_tier env size s).1 := by
  rw [run_tier_times]
  exact ⟨hdt _, hdt _, hdt _, hdt _⟩

theorem posTier_opTime (t : TierResult) (h : posTier t) (op : String) :
    0 < opTime t op := by
  unfold opTime
  split_ifs
  · exact h.1
  · exact h.2.1
  · exact h.2.2.1
  · exact h.2.2.2

theorem dictInsert_not_mem (k : Nat) (v : TierResult) :
    ∀ res : List (Nat × TierResult), k ∉ res.map Prod.fst →
      dictInsert k v res = res ++ [(k, v)] := by
  intro res
  induction res with
  | nil => intro _; rfl
  | cons p rest ih =>
      intro h
      simp at h
      rw [dictInsert, if_neg (fun hpk => h.1 hpk.symm)]
      rw [ih (by simpa using h.2)]
      simp

theorem testCycleLoop_spec (env : Env) (hdt : ∀ k, 0 < env.dt k) :
    ∀ (sizes : List Nat) (acc : List (Nat × TierResult)) (s : DBState),
      sizes.Nodup → (∀ z ∈ sizes, z ∉ acc.map Prod.fst) →
      ∃ l, (testCycleLoop env sizes acc s).1 = acc ++ l ∧
        l.map Prod.fst = sizes ∧ ∀ p ∈ l, posTier p.2 := by
  intro sizes
  induction sizes with
  | nil =>
      intro acc s _ _
      exact ⟨[], by simp [testCycleLoop], rfl, by simp⟩
  | cons z rest ih =>
      intro acc s hnd hdisj
      have hz : z ∉ acc.map Prod.fst := hdisj z (by simp)
      have hins : dictInsert z (run_tier env z s).1 acc =
          acc ++ [(z, (run_tier env z s).1)] :=
        dictInsert_not_mem _ _ _ hz
      have hzr : z ∉ rest := (List.nodup_cons.mp hnd).1
      have hdisj2 : ∀ w ∈ rest,
          w ∉ (acc ++ [(z, (run_tier env z s).1)]).map Prod.fst := by
        intro w hw hmem
        rw [List.map_append] at hmem
        rcases List.mem_append.mp hmem with hma | hmb
        · exact hdisj w (List.mem_cons_of_mem _ hw) hma
        · simp at hmb
          exact hzr (hmb ▸ hw)
      obtain ⟨l, hl, hk, hp⟩ :=
        ih (acc ++ [(z, (run_tier env z s).1)]) (run_tier env z s).2
          (List.nodup_cons.mp hnd).2 hdisj2
      refine ⟨(z, (run_tier env z s).1) :: l, ?_, by simp [hk], ?_⟩
      · show (testCycleLoop env rest
            (dictInsert z (run_tier env z s).1 acc) (run_tier env z s).2).1 = _
        rw [hins, hl]
        simp
      · intro p hp2
        rcases List.mem_cons.mp hp2 with h1 | h2
        · rw [h1]
          exact run_tier_posTier env hdt z s
        · exact hp p h2

theorem lookup_of_keys (z : Nat) :
    ∀ (l : List (Nat × TierResult)),
      z ∈ l.map Prod.fst → ∃ t, List.lookup z l = some t ∧ (z, t) ∈ l := by
  intro l
  induction l with
  | nil => intro h; simp at h
  | cons p rest ih =>
      intro h
      by_cases hzp : z = p.1
      · refine ⟨p.2, ?_, ?_⟩
        · simp [List.lookup, hzp]
        · simp [hzp]
      · have hfalse : (z == p.1) = false := by simp [hzp]
        have h2 : z ∈ rest.map Prod.fst := by
          rw [List.map_cons] at h
          rcases List.mem_cons.mp h with h1 | h1
          · exact absurd h1 hzp
          · exact h1
        obtain ⟨t, ht, hmem⟩ := ih h2
        exact ⟨t, by simp [List.lookup, hfalse, ht],
          List.mem_cons_of_mem _ hmem⟩

theorem exceptMapList_ok {α β : Type} (f : α → Except String β) (g : α → β) :
    ∀ l : List α, (∀ a ∈ l, f a = Except.ok (g a)) →
      exceptMapList f l = Except.ok (l.map g) := by
  intro l
  induction l with
  | nil => intro _; rfl
  | cons a l ih =>
      intro h
      rw [exceptMapList, h a (by simp), ih (fun b hb => h b (by simp [hb]))]
      rfl

theorem compRow_ok (results_with_index : List (Nat × TierResult)) (size : Nat)
    (op : String) (tw ti : TierResult)
    (hlk : List.lookup size results_with_index = some ti)
    (hw : opTime tw op ≠ 0) :
    compRow results_with_index size op tw =
      Except.ok ⟨size, op, opTime tw op, opTime ti op,
        (opTime tw op - opTime ti op) / opTime tw op * 100⟩ := by
  rw [compRow, hlk]
  simp [diff_percent, pydiv, hw]

/-- The comparison row list produced for one without-index entry, written as
a pure function: the four operations in their fixed order, paired with the
looked-up with-index tier result. -/
def rowsForEntry (results_with_index : List (Nat × TierResult))
    (p : Nat × TierResult) : List CompRow :=
  opsList.map (fun op =>
    let ti := (List.lookup p.1 results_with_index).getD ⟨0, 0, 0, 0, 0⟩
    ⟨p.1, op, opTime p.2 op, opTime ti op,
      (opTime p.2 op - opTime ti op) / opTime p.2 op * 100⟩)

theorem print_table_ok
    (results_without_index results_with_index : List (Nat × TierResult))
    (sizes : List Nat)
    (hkW : results_without_index.map Prod.fst = sizes)
    (hkI : results_with_index.map Prod.fst = sizes)
    (hposW : ∀ p ∈ results_without_index, posTier p.2) :
    _print_comparison_table results_without_index results_with_index =
      Except.ok ((results_without_index.map
        (rowsForEntry results_with_index)).flatten) ∧
    ((results_without_index.map
        (rowsForEntry results_with_index)).flatten).map
          (fun r => (r.size, r.op)) =
      sizes.flatMap (fun z => opsList.map (fun op => (z, op))) := by
  have houter : ∀ p ∈ results_without_index,
      exceptMapList (fun op => compRow results_with_index p.1 op p.2) opsList =
        Except.ok (rowsForEntry results_with_index p) := by
    intro p hp
    have hpz : p.1 ∈ results_with_index.map Prod.fst := by
      rw [hkI, ← hkW]
      exact List.mem_map_of_mem Prod.fst hp
    obtain ⟨ti, hti, _⟩ := lookup_of_keys p.1 results_with_index hpz
    apply exceptMapList_ok
    intro op hop
    have hw : opTime p.2 op ≠ 0 :=
      ne_of_gt (posTier_opTime p.2 (hposW p hp) op)
    rw [compRow_ok results_with_index p.1 op p.2 ti hti hw]
    simp [hti]
  constructor
  · rw [_print_comparison_table,
      exceptMapList_ok _ (rowsForEntry results_with_index) _ houter]
    rfl
  · rw [List.map_flatten, List.map_map]
    have hentry : (fun p => (rowsForEntry results_with_index p).map
          (fun r => (r.size, r.op))) =
        (fun z => opsList.map (fun op => (z, op))) ∘ Prod.fst := by
      funext p
      simp [rowsForEntry, List.map_map]
    calc (results_without_index.map
            ((List.map (fun r => (r.size, r.op))) ∘
              rowsForEntry results_with_index)).flatten
        = (results_without_index.map
            (((fun z => opsList.map (fun op => (z, op))) ∘
              Prod.fst))).flatten := by
          rw [← hentry]; rfl
      _ = ((results_without_index.map Prod.fst).map
            (fun z => opsList.map (fun op => (z, op)))).flatten := by
          rw [List.map_map]
      _ = sizes.flatMap (fun z => opsList.map (fun op => (z, op))) := by
          rw [hkW]; rfl

/-- C7: for every ordered sequence of distinct sizes, the indexed-variant
`run_performance_tests` runs the full tier sequence once with no indexes,
then creates indexes (whatever the outcome of that attempt) and runs the full
sequence again, then drops indexes, and — provided every timed call takes
positive wall-clock time, so that no baseline duration is zero — produces a
comparison report with exactly one row per (size, operation) pair: 4 rows per
tested size, in the fixed operation order Insert, Select, Update, Delete. -/
theorem C7_run_all_report_shape (env : Env)
    (createOutcome dropOutcome : Except String Unit)
    (test_sizes : List Nat) (s : DBState)
    (hnd : test_sizes.Nodup) (hdt : ∀ k, 0 < env.dt k) :
    ∃ results_without_index results_with_index rows s2,
      run_performance_tests env createOutcome dropOutcome test_sizes s =
        Except.ok (results_without_index, results_with_index, rows, s2) ∧
      results_without_index.map Prod.fst = test_sizes ∧
      results_with_index.map Prod.fst = test_sizes ∧
      rows.map (fun r => (r.size, r.op)) =
        test_sizes.flatMap (fun z => opsList.map (fun op => (z, op))) := by
  obtain ⟨l1, hl1, hk1, hp1⟩ := testCycleLoop_spec env hdt test_sizes []
    (log_result { s with log := [] } "=== Тестування без індексів ===")
    hnd (by simp)
  rw [List.nil_append] at hl1
  obtain ⟨l2, hl2, hk2, hp2⟩ := testCycleLoop_spec env hdt test_sizes []
    (log_result (create_indexes createOutcome
      (testCycleLoop env test_sizes []
        (log_result { s with log := [] }
          "=== Тестування без індексів ===")).2)
      "=== Тестування з індексами ===") hnd (by simp)
  rw [List.nil_append] at hl2
  obtain ⟨hok, hproj⟩ := print_table_ok l1 l2 test_sizes hk1 hk2 hp1
  refine ⟨l1, l2, (l1.map (rowsForEntry l2)).flatten,
    drop_indexes dropOutcome
      (testCycleLoop env test_sizes []
        (log_result (create_indexes createOutcome
          (testCycleLoop env test_sizes []
            (log_result { s with log := [] }
              "=== Тестування без індексів ===")).2)
          "=== Тестування з індексами ===")).2,
    ?_, hk1, hk2, hproj⟩
  unfold run_performance_tests
  simp only [_run_test_cycle]
  rw [hl1, hl2, hok]
  rfl

/-- Witness for C7: one tier of size 1 from the two-row start state, with the
index-creation attempt failing (showing the failure is non-fatal for the
run). -/
theorem C7_witness :
    [1].Nodup ∧ (∀ k, 0 < envW.dt k) ∧
    (∃ results_without_index results_with_index rows s2,
      run_performance_tests envW (Except.error "boom") (Except.ok ()) [1] sW =
        Except.ok (results_without_index, results_with_index, rows, s2) ∧
      results_without_index.map Prod.fst = [1] ∧
      results_with_index.map Prod.fst = [1] ∧
      rows.map (fun r => (r.size, r.op)) =
        [1].flatMap (fun z => opsList.map (fun op => (z, op)))) :=
  ⟨by decide, fun _ => one_pos,
   C7_run_all_report_shape envW (Except.error "boom") (Except.ok ()) [1] sW
     (by decide) (fun _ => one_pos)⟩
